import Mathlib

/-!
Verification of the hacker-logic MCP server repository: a shallow embedding
of its path validator, file-operation handler, calculator, tool dispatch and
extension process lifecycle, with theorems settling the frozen claims.

Strings are modelled as Lean strings; the underlying character lists are used
for all computation so that every definition reduces in the kernel.
-/

namespace CopilotBuild

/-! ## List and string utilities -/

/-- Splits a character list on a separator character. Models the behaviour of
splitting a JS string on a single character: n separators yield n+1 pieces. -/
def splitOnChar (c : Char) : List Char → List (List Char)
  | [] => [[]]
  | x :: xs =>
    match splitOnChar c xs with
    | [] => [[x]]
    | h :: t => if x = c then [] :: h :: t else (x :: h) :: t

/-- Joins pieces with a separator character. -/
def joinSep (c : Char) : List (List Char) → List Char
  | [] => []
  | [x] => x
  | x :: y :: t => x ++ c :: joinSep c (y :: t)

/-- True when the needle occurs as a contiguous substring of the haystack.
Models the JS String.prototype.includes method. -/
def hasSub (hay needle : List Char) : Bool :=
  match hay with
  | [] => needle.isEmpty
  | h :: t => needle.isPrefixOf (h :: t) || hasSub t needle

/-- Replaces the first occurrence of pat in the haystack by rep, leaving the
rest unchanged; the haystack is returned unchanged when pat does not occur.
Models JS String.prototype.replace with a string (non-regex) pattern, which
replaces only the first occurrence. -/
def replaceFirstL (pat rep : List Char) : List Char → List Char
  | [] => if pat = [] then rep else []
  | h :: t =>
    if pat.isPrefixOf (h :: t) then rep ++ (h :: t).drop pat.length
    else h :: replaceFirstL pat rep t

/-- String wrapper for replaceFirstL. -/
def replaceFirstS (s pat rep : String) : String :=
  ⟨replaceFirstL pat.data rep.data s.data⟩

/-! ## Posix path model

Models the Node path module (posix flavour, the platform the server runs on):
normalize, resolve (with an absolute base, which the SecurityManager
constructor guarantees), isAbsolute, dirname and the separator. -/

/-- One step of segment normalization: skips empty and dot segments, pops on a
dot-dot segment (or keeps it when above-root segments are allowed, as Node does
for relative paths). The stack holds processed segments in reverse order. -/
def normStep (allowAbove : Bool) (stack : List (List Char)) (seg : List Char) :
    List (List Char) :=
  if seg = [] ∨ seg = ['.'] then stack
  else if seg = ['.', '.'] then
    match stack with
    | [] => if allowAbove then [seg] else []
    | top :: rest => if top = ['.', '.'] then seg :: top :: rest else rest
  else seg :: stack

/-- Normalized segment list, in order. -/
def normCore (allowAbove : Bool) (segs : List (List Char)) : List (List Char) :=
  (segs.foldl (normStep allowAbove) []).reverse

/-- Models Node path.posix.normalize on character lists. -/
def posixNormalizeL (p : List Char) : List Char :=
  if p = [] then ['.']
  else
    let isAbs := p.head? = some '/'
    let trail := p.getLast? = some '/'
    let core0 := joinSep '/' (normCore (!isAbs) (splitOnChar '/' p))
    let core1 := if core0 = [] ∧ ¬ isAbs then ['.'] else core0
    let core2 := if trail ∧ core1 ≠ [] then core1 ++ ['/'] else core1
    if isAbs then '/' :: core2 else core2

/-- Models Node path.posix.resolve base p for an absolute base path, the only
way the server calls it: the SecurityManager constructor stores
path.resolve(workspaceRoot), an absolute path. When p is itself absolute the
base is ignored, exactly as in Node. -/
def posixResolve2L (base p : List Char) : List Char :=
  let combined := if p.head? = some '/' then p else base ++ '/' :: p
  '/' :: joinSep '/' (normCore false (splitOnChar '/' combined))

/-- Models Node path.posix.isAbsolute. -/
def posixIsAbsoluteL (p : List Char) : Bool := p.head? = some '/'

/-- Models Node path.posix.dirname restricted to paths without trailing or
duplicate separators, which is all this code ever passes to it (outputs of
resolve). -/
def posixDirnameL (p : List Char) : List Char :=
  match (p.reverse).dropWhile (fun c => c ≠ '/') with
  | [] => ['.']
  | '/' :: rest => if rest = [] then ['/'] else rest.reverse
  | r => r.reverse

/-- String wrapper for posixDirnameL. -/
def posixDirnameS (p : String) : String := ⟨posixDirnameL p.data⟩

/-! ## SecurityManager (src: SecurityManager.ts, duplicated in mcpServer.ts) -/

/-- The security context fields of SecurityManager: an absolute workspace
root, the maximum file size in bytes, and the allowed file operations. -/
structure SecurityCtx where
  workspaceRoot : String
  maxFileSize : Nat
  allowedOperations : List String
  deriving DecidableEq

/-- Default maximum file size: 10 MB, as in the SecurityManager constructor. -/
def defaultMaxFileSize : Nat := 10 * 1024 * 1024

/-- The suspicious substrings rejected by validatePath, in source order. -/
def suspiciousPatterns : List String := ["..", "./", "\\", "~"]

/-- First suspicious pattern occurring in the requested path, if any. -/
def findSuspicious (p : String) : Option String :=
  suspiciousPatterns.find? (fun pat => hasSub p.data pat.data)

/-- True when the resolved path passes the workspace containment check of
validatePath: it starts with the workspace root followed by the separator, or
equals the workspace root. -/
def inWorkspaceB (root r : List Char) : Bool :=
  (root ++ ['/']).isPrefixOf r || r = root

/-- Models SecurityManager.validatePath (identical to
McpServerExample.validatePath): input checks, suspicious-pattern rejection,
normalize + resolve against the workspace root, containment check, and
absolute-path rejection, in source order. Throwing is modelled as Except.error
with the thrown message. -/
def validatePath (root requestedPath : String) : Except String String :=
  if requestedPath = "" then
    .error "Invalid path: path must be a non-empty string"
  else if 1000 < requestedPath.data.length then
    .error "Path too long (max 1000 characters)"
  else if hasSub requestedPath.data ['\x00'] then
    .error "Invalid path: null bytes not allowed"
  else
    match findSuspicious requestedPath with
    | some pat =>
      .error ("Security violation: \"" ++ pat ++ "\" not allowed in paths")
    | none =>
      if inWorkspaceB root.data
          (posixResolve2L root.data (posixNormalizeL requestedPath.data)) then
        if posixIsAbsoluteL requestedPath.data then
          .error "Absolute paths not allowed. Use paths relative to workspace"
        else
          .ok ⟨posixResolve2L root.data (posixNormalizeL requestedPath.data)⟩
      else
        .error "Access denied: Path is outside workspace boundary"

/-! ### Helper lemmas about validatePath -/

/-- A successful validatePath returns exactly the resolution of the normalized
request against the root, and that value passes the containment check. -/
theorem validatePath_ok_spec (root p r : String)
    (h : validatePath root p = .ok r) :
    r.data = posixResolve2L root.data (posixNormalizeL p.data) ∧
      inWorkspaceB root.data r.data = true := by
  unfold validatePath at h
  repeat' split at h
  any_goals cases h
  rename_i hin _
  exact ⟨rfl, hin⟩

/-- validatePath never silently succeeds: the result is ok or error. -/
theorem validatePath_cases (root p : String) :
    (∃ r, validatePath root p = .ok r) ∨ (∃ e, validatePath root p = .error e) := by
  cases h : validatePath root p with
  | ok r => exact Or.inl ⟨r, rfl⟩
  | error e => exact Or.inr ⟨e, rfl⟩

/-- A successful validatePath implies every rejection condition was false:
the request was non-empty, within the length bound, free of null bytes and
suspicious patterns, and not absolute. -/
theorem validatePath_ok_checks (root p r : String) (h : validatePath root p = .ok r) :
    ¬ (p = "" ∨ 1000 < p.data.length ∨ hasSub p.data ['\x00'] = true ∨
       (∃ pat ∈ suspiciousPatterns, hasSub p.data pat.data = true) ∨
       posixIsAbsoluteL p.data = true) := by
  intro hbad
  unfold validatePath at h
  by_cases hp : p = ""
  · rw [if_pos hp] at h; cases h
  rw [if_neg hp] at h
  by_cases hlen : 1000 < p.data.length
  · rw [if_pos hlen] at h; cases h
  rw [if_neg hlen] at h
  by_cases hnull : hasSub p.data ['\x00'] = true
  · rw [if_pos hnull] at h; cases h
  rw [if_neg hnull] at h
  cases hf : findSuspicious p with
  | some q => rw [hf] at h; cases h
  | none =>
    rw [hf] at h
    by_cases hin : inWorkspaceB root.data (posixResolve2L root.data (posixNormalizeL p.data)) = true
    · rw [if_pos hin] at h
      by_cases habs : posixIsAbsoluteL p.data = true
      · rw [if_pos habs] at h; cases h
      · rcases hbad with h1 | h1 | h1 | ⟨pat, hmem, hpat⟩ | h1
        · exact hp h1
        · exact hlen h1
        · exact hnull h1
        · exact (List.find?_eq_none.mp hf pat hmem) hpat
        · exact habs h1
    · rw [if_neg hin] at h; cases h

/-- C1: when validatePath returns normally its value is the resolution of the
normalized requested path against the workspace root and that value is inside
the workspace root (equals it or extends it past a separator); any request
whose resolution falls outside the root makes validatePath throw. -/
theorem claim_C1_validatePath_containment (root p : String) :
    (∀ r, validatePath root p = .ok r →
        r.data = posixResolve2L root.data (posixNormalizeL p.data) ∧
        (r = root ∨ (root.data ++ ['/']).isPrefixOf r.data = true)) ∧
    (inWorkspaceB root.data (posixResolve2L root.data (posixNormalizeL p.data)) = false →
        ∃ e, validatePath root p = .error e) := by
  constructor
  · intro r h
    obtain ⟨h1, h2⟩ := validatePath_ok_spec root p r h
    refine ⟨h1, ?_⟩
    unfold inWorkspaceB at h2
    rcases Bool.or_eq_true _ _ |>.mp h2 with hpre | heq
    · exact Or.inr hpre
    · left
      have hd : r.data = root.data := of_decide_eq_true heq
      cases r; cases root; exact congrArg String.mk hd
  · intro hout
    rcases validatePath_cases root p with ⟨r, hr⟩ | he
    · obtain ⟨h1, h2⟩ := validatePath_ok_spec root p r hr
      rw [h1, hout] at h2
      cases h2
    · exact he

/-- Witness for C1 at root /ws and request x: the validated result /ws/x is
the resolution of the normalized request and lies inside the root. -/
theorem claim_C1_witness :
    ("/ws/x" : String).data = posixResolve2L "/ws".data (posixNormalizeL "x".data) ∧
      (("/ws/x" : String) = "/ws" ∨
        ("/ws".data ++ ['/']).isPrefixOf "/ws/x".data = true) :=
  (claim_C1_validatePath_containment "/ws" "x").1 "/ws/x" (by rfl)

/-- C4: validatePath throws on every suspicious input: empty, longer than
1000 characters, containing a null byte, containing one of the substrings
dot-dot, dot-slash, backslash or tilde, or absolute. -/
theorem claim_C4_validatePath_rejects (root p : String)
    (h : p = "" ∨ 1000 < p.data.length ∨ hasSub p.data ['\x00'] = true ∨
         (∃ pat ∈ suspiciousPatterns, hasSub p.data pat.data = true) ∨
         posixIsAbsoluteL p.data = true) :
    ∃ e, validatePath root p = .error e := by
  rcases validatePath_cases root p with ⟨r, hr⟩ | he
  · exact absurd h (validatePath_ok_checks root p r hr)
  · exact he

/-- Witness for C4: a request containing a tilde is rejected at root /ws. -/
theorem claim_C4_witness : ∃ e, validatePath "/ws" "a~b" = .error e :=
  claim_C4_validatePath_rejects "/ws" "a~b"
    (Or.inr (Or.inr (Or.inr (Or.inl ⟨"~", by decide, by decide⟩))))

/-! ## Tool results (src: types/index.ts, BaseToolHandler) -/

/-- One content item of a ToolResult; the handlers only ever produce items of
type text. -/
structure ContentItem where
  type : String
  text : String
  deriving DecidableEq

/-- The ToolResult shape returned by every tool handler. -/
structure ToolResult where
  content : List ContentItem
  deriving DecidableEq

/-- Models BaseToolHandler.createSuccessResult. -/
def mkSuccess (t : String) : ToolResult := ⟨[⟨"text", t⟩]⟩

/-- Models BaseToolHandler.createErrorResult: a single text item whose text is
the message prefixed with Error and a colon. -/
def mkError (m : String) : ToolResult := ⟨[⟨"text", "Error: " ++ m⟩]⟩

/-! ## Filesystem model and the file_operation tool
(src: FileOperationToolHandler.ts)

The filesystem is an association list from absolute path to entry; each fs
call of the handler is recorded in an access log so that the claims about
which paths are touched can be stated. Error messages of the fs primitives
follow the Node format (code, description, syscall, quoted path). -/

/-- A filesystem entry: a regular file with content and stat size, or a
directory with its entry names. -/
inductive FsEntry
  | file (content : String) (size : Nat)
  | dir (entries : List String)
  deriving DecidableEq

/-- A filesystem snapshot. -/
abbrev Fs := List (String × FsEntry)

/-- Lookup of a path in the filesystem. -/
def fsFind (fs : Fs) (p : String) : Option FsEntry :=
  (fs.find? (fun e => e.1 == p)).map (fun e => e.2)

/-- One recorded filesystem access of the handler, with the path touched. -/
inductive FsAccess
  | statA (p : String)
  | readFileA (p : String)
  | writeFileA (p : String)
  | mkdirA (p : String)
  | readdirA (p : String)
  deriving DecidableEq

/-- The path at which an access touches the filesystem. -/
def FsAccess.path : FsAccess → String
  | statA p => p
  | readFileA p => p
  | writeFileA p => p
  | mkdirA p => p
  | readdirA p => p

/-- Node message for a failed stat. -/
def enoentStat (p : String) : String :=
  "ENOENT: no such file or directory, stat '" ++ p ++ "'"

/-- The three file operations accepted by the tool schema. -/
inductive FileOp
  | read
  | write
  | list
  deriving DecidableEq

/-- The operation name as it appears in requests and in allowedOperations. -/
def FileOp.opName : FileOp → String
  | read => "read"
  | write => "write"
  | list => "list"

/-- Arguments of a file_operation request after schema validation. -/
structure FileOpArgs where
  operation : FileOp
  path : String
  content : Option String
  deriving DecidableEq

/-- Models FileOperationToolHandler.handleRead: stat, file check, the second
stat performed inside validateFileSize, the size limit, then readFile. -/
def handleRead (maxFileSize : Nat) (fs : Fs) (safePath requestedPath : String) :
    Except String String × List FsAccess :=
  match fsFind fs safePath with
  | none => (.error (enoentStat safePath), [.statA safePath])
  | some (.dir _) => (.error "Path is not a file", [.statA safePath])
  | some (.file c sz) =>
    if sz > maxFileSize then
      (.error ("File too large: " ++ toString sz ++ " bytes (max " ++
        toString maxFileSize ++ ")"), [.statA safePath, .statA safePath])
    else
      (.ok ("Content of " ++ requestedPath ++ ":\n" ++ c),
        [.statA safePath, .statA safePath, .readFileA safePath])

/-- Models FileOperationToolHandler.handleWrite: the JS falsy check on the
content (absent or empty string), the content size limit, then mkdir on the
parent directory and writeFile. -/
def handleWrite (maxFileSize : Nat) (fs : Fs) (safePath requestedPath : String)
    (content : Option String) : Except String String × List FsAccess :=
  match content with
  | none => (.error "Content is required for write operation", [])
  | some c =>
    if c = "" then (.error "Content is required for write operation", [])
    else if c.data.length > maxFileSize then
      (.error ("Content too large: " ++ toString c.data.length ++
        " bytes (max " ++ toString maxFileSize ++ ")"), [])
    else
      match fsFind fs safePath with
      | some (.dir _) =>
        (.error ("EISDIR: illegal operation on a directory, open '" ++
          safePath ++ "'"),
          [.mkdirA (posixDirnameS safePath), .writeFileA safePath])
      | _ =>
        (.ok ("Successfully wrote " ++ toString c.data.length ++ " bytes to " ++
          requestedPath),
          [.mkdirA (posixDirnameS safePath), .writeFileA safePath])

/-- Models FileOperationToolHandler.handleList: stat, directory check,
readdir, and the 1000-item truncation of the listing. -/
def handleList (fs : Fs) (safePath requestedPath : String) :
    Except String String × List FsAccess :=
  match fsFind fs safePath with
  | none => (.error (enoentStat safePath), [.statA safePath])
  | some (.file _ _) => (.error "Path is not a directory", [.statA safePath])
  | some (.dir items) =>
    (.ok ("Contents of " ++ requestedPath ++ " (" ++ toString items.length ++
        " items):\n" ++ String.intercalate "\n" (items.take 1000) ++
        (if 1000 < items.length then "\n... (truncated)" else "")),
      [.statA safePath, .readdirA safePath])

/-- Models the try block of FileOperationToolHandler.execute: schema parse
(none models a Zod rejection), allowed-operation check, path validation, then
dispatch to the operation. -/
def fileOpInner (sec : SecurityCtx) (fs : Fs) (args : Option FileOpArgs) :
    Except String String × List FsAccess :=
  match args with
  | none => (.error "Invalid arguments", [])
  | some a =>
    if sec.allowedOperations.contains a.operation.opName then
      match validatePath sec.workspaceRoot a.path with
      | .error e => (.error e, [])
      | .ok safePath =>
        match a.operation with
        | .read => handleRead sec.maxFileSize fs safePath a.path
        | .write => handleWrite sec.maxFileSize fs safePath a.path a.content
        | .list => handleList fs safePath a.path
    else
      (.error ("Invalid operation: " ++ a.operation.opName), [])

/-- Models FileOperationToolHandler.execute: the try block, and on error the
catch block that replaces the workspace root in the message (the first
occurrence, as JS replace with a string pattern does) and wraps the result
with createErrorResult. -/
def fileOpExecute (sec : SecurityCtx) (fs : Fs) (args : Option FileOpArgs) :
    ToolResult × List FsAccess :=
  match fileOpInner sec fs args with
  | (.ok t, log) => (mkSuccess t, log)
  | (.error e, log) =>
    (mkError (replaceFirstS e sec.workspaceRoot "[workspace]"), log)

/-! ### Access lemmas for the file operations -/

/-- Every access of handleRead is at the validated path. -/
theorem handleRead_accesses (m : Nat) (fs : Fs) (s r : String) :
    ∀ acc ∈ (handleRead m fs s r).2, acc.path = s := by
  intro acc hacc
  unfold handleRead at hacc
  repeat' split at hacc
  all_goals simp at hacc
  all_goals
    first
    | (rcases hacc with rfl | rfl | rfl)
    | (rcases hacc with rfl | rfl)
    | (subst hacc)
  all_goals rfl

/-- Every access of handleWrite is at the validated path or at its parent
directory. -/
theorem handleWrite_accesses (m : Nat) (fs : Fs) (s r : String) (c : Option String) :
    ∀ acc ∈ (handleWrite m fs s r c).2,
      acc.path = s ∨ acc.path = posixDirnameS s := by
  intro acc hacc
  unfold handleWrite at hacc
  repeat' split at hacc
  all_goals simp at hacc
  all_goals
    first
    | (rcases hacc with rfl | rfl)
    | (subst hacc)
  all_goals first | exact Or.inl rfl | exact Or.inr rfl

/-- Every access of handleList is at the validated path. -/
theorem handleList_accesses (fs : Fs) (s r : String) :
    ∀ acc ∈ (handleList fs s r).2, acc.path = s := by
  intro acc hacc
  unfold handleList at hacc
  repeat' split at hacc
  all_goals simp at hacc
  all_goals
    first
    | (rcases hacc with rfl | rfl)
    | (subst hacc)
  all_goals rfl

/-- The access log of fileOpExecute is the access log of its try block. -/
theorem fileOpExecute_log (sec : SecurityCtx) (fs : Fs) (args : Option FileOpArgs) :
    (fileOpExecute sec fs args).2 = (fileOpInner sec fs args).2 := by
  unfold fileOpExecute
  rcases h : fileOpInner sec fs args with ⟨res, log⟩
  cases res <;> rfl

/-- When the try block of fileOpExecute throws, the catch block returns the
createErrorResult of the message with its first workspace-root occurrence
replaced. -/
theorem fileOpExecute_error (sec : SecurityCtx) (fs : Fs) (args : Option FileOpArgs)
    (e : String) (h : (fileOpInner sec fs args).1 = .error e) :
    (fileOpExecute sec fs args).1 =
      mkError (replaceFirstS e sec.workspaceRoot "[workspace]") := by
  unfold fileOpExecute
  rcases hi : fileOpInner sec fs args with ⟨res, log⟩
  rw [hi] at h
  simp at h
  subst h
  rfl

/-- Accesses of the try block are gated by validatePath, and a validation
failure produces no access and an error. -/
theorem fileOpInner_gated (sec : SecurityCtx) (fs : Fs) (args : Option FileOpArgs) :
    (∀ acc ∈ (fileOpInner sec fs args).2, ∃ a safe,
        args = some a ∧ validatePath sec.workspaceRoot a.path = .ok safe ∧
        (acc.path = safe ∨ acc.path = posixDirnameS safe)) ∧
    (∀ a e, args = some a → validatePath sec.workspaceRoot a.path = .error e →
        (fileOpInner sec fs args).2 = [] ∧
        ∃ m, (fileOpInner sec fs args).1 = .error m) := by
  constructor
  · intro acc hacc
    cases args with
    | none => simp [fileOpInner] at hacc
    | some a =>
      simp only [fileOpInner] at hacc
      by_cases hop : sec.allowedOperations.contains a.operation.opName = true
      · rw [if_pos hop] at hacc
        cases hv : validatePath sec.workspaceRoot a.path with
        | error e => rw [hv] at hacc; simp at hacc
        | ok safe =>
          rw [hv] at hacc
          cases ho : a.operation with
          | read =>
            rw [ho] at hacc
            exact ⟨a, safe, rfl, hv, Or.inl (handleRead_accesses _ _ _ _ acc hacc)⟩
          | write =>
            rw [ho] at hacc
            exact ⟨a, safe, rfl, hv, handleWrite_accesses _ _ _ _ _ acc hacc⟩
          | list =>
            rw [ho] at hacc
            exact ⟨a, safe, rfl, hv, Or.inl (handleList_accesses _ _ _ acc hacc)⟩
      · rw [if_neg hop] at hacc; simp at hacc
  · intro a e ha hv
    subst ha
    simp only [fileOpInner]
    by_cases hop : sec.allowedOperations.contains a.operation.opName = true
    · rw [if_pos hop, hv]
      exact ⟨rfl, e, rfl⟩
    · rw [if_neg hop]
      exact ⟨rfl, _, rfl⟩

/-- C5 (amended): every filesystem access of a file_operation request happens
at the path accepted by validatePath, which lies inside the workspace root, or
at the parent directory of that path (the mkdir of the write operation, which
can fall outside the root only when the accepted path is the root itself); for
every request whose path fails validation, no filesystem access occurs and an
error result is returned. -/
theorem claim_C5_fileOp_gated (sec : SecurityCtx) (fs : Fs) (args : Option FileOpArgs) :
    (∀ acc ∈ (fileOpExecute sec fs args).2, ∃ a safe,
        args = some a ∧ validatePath sec.workspaceRoot a.path = .ok safe ∧
        inWorkspaceB sec.workspaceRoot.data safe.data = true ∧
        (acc.path = safe ∨ acc.path = posixDirnameS safe)) ∧
    (∀ a e, args = some a → validatePath sec.workspaceRoot a.path = .error e →
        (fileOpExecute sec fs args).2 = [] ∧
        ∃ m, (fileOpExecute sec fs args).1 = mkError m) := by
  constructor
  · intro acc hacc
    rw [fileOpExecute_log] at hacc
    obtain ⟨a, safe, ha, hv, hpath⟩ := (fileOpInner_gated sec fs args).1 acc hacc
    exact ⟨a, safe, ha, hv, (validatePath_ok_spec _ _ _ hv).2, hpath⟩
  · intro a e ha hv
    obtain ⟨hlog, m, hm⟩ := (fileOpInner_gated sec fs args).2 a e ha hv
    refine ⟨by rw [fileOpExecute_log]; exact hlog, _, fileOpExecute_error sec fs args m hm⟩

/-- Witness for C5 (amended), at the mkdir access of a write request with
path dot: the accepted path is the workspace root and the access is at its
parent directory. -/
theorem claim_C5_witness :
    ∃ a safe, (some ⟨FileOp.write, ".", some "x"⟩ : Option FileOpArgs) = some a ∧
      validatePath "/ws" a.path = .ok safe ∧
      inWorkspaceB "/ws".data safe.data = true ∧
      ((FsAccess.mkdirA "/").path = safe ∨
        (FsAccess.mkdirA "/").path = posixDirnameS safe) :=
  (claim_C5_fileOp_gated ⟨"/ws", defaultMaxFileSize, ["read", "write", "list"]⟩
      [("/ws", FsEntry.dir [])] (some ⟨FileOp.write, ".", some "x"⟩)).1
    (FsAccess.mkdirA "/") (by decide)

/-- C5 counterexample: the write request with path dot validates to the
workspace root itself and the handler then calls mkdir on the parent of the
workspace root, a filesystem access at a path that is not inside the
workspace boundary (and was never accepted by validatePath). -/
theorem claim_C5_counterexample :
    validatePath "/ws" "." = .ok "/ws" ∧
    (fileOpExecute ⟨"/ws", defaultMaxFileSize, ["read", "write", "list"]⟩
        [("/ws", FsEntry.dir [])] (some ⟨FileOp.write, ".", some "x"⟩)).2 =
      [FsAccess.mkdirA "/", FsAccess.writeFileA "/ws"] ∧
    inWorkspaceB "/ws".data "/".data = false := by
  refine ⟨rfl, ?_, by decide⟩
  decide

/-- C9: at the failing input (read of the missing relative path ws/x under
workspace root /ws) the underlying Node error message mentions the resolved
path /ws/ws/x; the catch block of fileOpExecute replaces only the first
occurrence of the workspace root, so the text returned to the client still
contains the workspace root /ws. -/
theorem claim_C9_root_leak :
    (fileOpExecute ⟨"/ws", defaultMaxFileSize, ["read", "write", "list"]⟩
        [] (some ⟨FileOp.read, "ws/x", none⟩)).1 =
      mkError "ENOENT: no such file or directory, stat '[workspace]/ws/x'" ∧
    hasSub ("Error: ENOENT: no such file or directory, stat '[workspace]/ws/x'").data
      "/ws".data = true := by
  constructor
  · decide
  · decide

/-- C10: a read of a file whose stat size exceeds maxFileSize yields an error
result and no readFile access; a write whose content length exceeds
maxFileSize yields an error result with no filesystem access at all. -/
theorem claim_C10_size_limits (sec : SecurityCtx) (fs : Fs) (p safe c cont : String)
    (sz : Nat) :
    (validatePath sec.workspaceRoot p = .ok safe →
      fsFind fs safe = some (.file cont sz) → sz > sec.maxFileSize →
      sec.allowedOperations.contains "read" = true →
      (∃ m, (fileOpExecute sec fs (some ⟨FileOp.read, p, none⟩)).1 = mkError m) ∧
      (∀ q, FsAccess.readFileA q ∉ (fileOpExecute sec fs (some ⟨FileOp.read, p, none⟩)).2)) ∧
    (validatePath sec.workspaceRoot p = .ok safe →
      c.data.length > sec.maxFileSize →
      sec.allowedOperations.contains "write" = true →
      (∃ m, (fileOpExecute sec fs (some ⟨FileOp.write, p, some c⟩)).1 = mkError m) ∧
      (fileOpExecute sec fs (some ⟨FileOp.write, p, some c⟩)).2 = []) := by
  constructor
  · intro hv hf hsz hop
    have hinner : fileOpInner sec fs (some ⟨FileOp.read, p, none⟩) =
        (.error ("File too large: " ++ toString sz ++ " bytes (max " ++
          toString sec.maxFileSize ++ ")"), [.statA safe, .statA safe]) := by
      simp only [fileOpInner, hv]
      simp only [handleRead, hf]
      rw [if_pos hsz]
      simp only [FileOp.opName]
      rw [if_pos hop]
    constructor
    · exact ⟨_, fileOpExecute_error _ _ _ _ (by rw [hinner])⟩
    · intro q hq
      rw [fileOpExecute_log, hinner] at hq
      simp at hq
  · intro hv hsz hop
    have hcne : ¬ (c = "") := by
      intro h
      subst h
      have h0 : ("" : String).data.length = 0 := rfl
      rw [h0] at hsz
      omega
    have hinner : fileOpInner sec fs (some ⟨FileOp.write, p, some c⟩) =
        (.error ("Content too large: " ++ toString c.data.length ++
          " bytes (max " ++ toString sec.maxFileSize ++ ")"), []) := by
      simp only [fileOpInner, hv]
      simp only [handleWrite]
      rw [if_neg hcne, if_pos hsz]
      simp only [FileOp.opName]
      rw [if_pos hop]
    constructor
    · exact ⟨_, fileOpExecute_error _ _ _ _ (by rw [hinner])⟩
    · rw [fileOpExecute_log, hinner]

/-- Witness for C10: with a 5-byte limit, reading a 9-byte file errors
without a readFile access, and writing 6 bytes errors with no access. -/
theorem claim_C10_witness :
    ((∃ m, (fileOpExecute ⟨"/ws", 5, ["read", "write", "list"]⟩
        [("/ws/a", FsEntry.file "abc" 9)] (some ⟨FileOp.read, "a", none⟩)).1 = mkError m) ∧
      (∀ q, FsAccess.readFileA q ∉ (fileOpExecute ⟨"/ws", 5, ["read", "write", "list"]⟩
        [("/ws/a", FsEntry.file "abc" 9)] (some ⟨FileOp.read, "a", none⟩)).2)) ∧
    ((∃ m, (fileOpExecute ⟨"/ws", 5, ["read", "write", "list"]⟩
        [] (some ⟨FileOp.write, "b", some "abcdef"⟩)).1 = mkError m) ∧
      (fileOpExecute ⟨"/ws", 5, ["read", "write", "list"]⟩
        [] (some ⟨FileOp.write, "b", some "abcdef"⟩)).2 = []) := by
  constructor
  · exact (claim_C10_size_limits ⟨"/ws", 5, ["read", "write", "list"]⟩
      [("/ws/a", FsEntry.file "abc" 9)] "a" "/ws/a" "" "abc" 9).1
      (by rfl) (by rfl) (by decide) (by decide)
  · exact (claim_C10_size_limits ⟨"/ws", 5, ["read", "write", "list"]⟩
      [] "b" "/ws/b" "abcdef" "" 0).2
      (by rfl) (by decide) (by decide)

/-! ## Calculator (src: SecurityManager.sanitizeMathExpression and
CalculateToolHandler.execute)

The JS eval call on the sanitized expression is modelled in two layers. A
recursive descent parser implements the JS grammar restricted to the
sanitized character set: additive and multiplicative operators,
exponentiation (right associative, and rejecting an unparenthesized unary
operand on its left, as JS does), unary plus and minus, parentheses, and
decimal literals; a parse failure models a SyntaxError thrown by eval. The
value layer tracks the IEEE-double outcome only where it is provably exact:
integer values of magnitude at most 2 to the 53, on which double addition,
subtraction, multiplication and exact division are exact and interpolate as
their decimal digits, and outcomes that are certainly non-finite (division
of anything by zero, and arithmetic on a value already known non-finite).
Every other outcome - non-integer values, results leaving the exact range,
exponentiation with a nonzero exponent (implementation-approximated in the
language standard), and literals with a leading zero (legacy octal forms) -
is classified untracked and resolved by an eval-oracle parameter
representing the host eval, exactly as a clock parameter represents the host
time for the get_time tool. -/

/-- The whitespace class removed by the sanitizer (JS regex backslash-s on
this ASCII input set). -/
def isSpaceJS (c : Char) : Bool :=
  c = ' ' || c = '\t' || c = '\n' || c = '\r' || c = '\x0b' || c = '\x0c'

/-- Whitespace removal performed before validation. -/
def stripSpaces (l : List Char) : List Char := l.filter (fun c => !isSpaceJS c)

/-- The character whitelist of the sanitizer. -/
def isExprChar (c : Char) : Bool :=
  c.isDigit || c = '+' || c = '-' || c = '*' || c = '/' || c = '(' ||
    c = ')' || c = '.'

/-- The operator characters counted by the complexity limit. -/
def isOpChar (c : Char) : Bool := c = '+' || c = '-' || c = '*' || c = '/'

/-- The parenthesis scan of sanitizeMathExpression: a running signed count,
incremented on an opening and decremented on a closing parenthesis, that must
never go negative and must end at zero (a character is never both, so the two
source ifs become an if-chain). -/
def parenScan : Int → List Char → Bool
  | n, [] => n = 0
  | n, c :: t =>
    if c = '(' then parenScan (n + 1) t
    else if c = ')' then (if n - 1 < 0 then false else parenScan (n - 1) t)
    else parenScan n t

/-- Models SecurityManager.sanitizeMathExpression: length bound, whitespace
removal, character whitelist (the regex also rejects the empty string),
dot-dot rejection, operator-count limit, and the parenthesis scan. -/
def sanitizeMathExpression (expression : String) : Except String String :=
  if 1000 < expression.data.length then
    .error "Expression too long (max 1000 characters)"
  else if (stripSpaces expression.data).isEmpty ||
      !(stripSpaces expression.data).all isExprChar then
    .error "Expression contains invalid characters"
  else if hasSub (stripSpaces expression.data) ['.', '.'] then
    .error "Invalid expression pattern"
  else if 100 < ((stripSpaces expression.data).filter isOpChar).length then
    .error "Expression too complex (max 100 operations)"
  else if !parenScan 0 (stripSpaces expression.data) then
    .error "Unbalanced parentheses"
  else
    .ok ⟨stripSpaces expression.data⟩

/-- A JS double in the model: exact n for the finite integer double n that
the model tracks precisely, nonfinite for a value certainly NaN or an
infinity, unknown for any double the exact fragment does not track (it may
be finite or not). -/
inductive JsNum
  | exact (n : Int)
  | nonfinite
  | unknown
  deriving DecidableEq

/-- The largest integer magnitude (2 to the 53) at which IEEE doubles
represent every integer exactly, so integer arithmetic staying within it is
exact. -/
def twoPow53 : Int := 9007199254740992

/-- True when the model may track the integer n as an exact double. -/
def exactRange (n : Int) : Bool := decide (-twoPow53 ≤ n ∧ n ≤ twoPow53)

/-- JS addition: exact on in-range integers (a correctly rounded sum whose
true value is representable is exact); any operand certainly non-finite
makes the sum certainly non-finite (infinities and NaN absorb); anything
else is untracked. -/
def jsAdd : JsNum → JsNum → JsNum
  | .exact a, .exact b => if exactRange (a + b) then .exact (a + b) else .unknown
  | .nonfinite, _ => .nonfinite
  | _, .nonfinite => .nonfinite
  | _, _ => .unknown

/-- JS subtraction, tracked exactly as jsAdd. -/
def jsSub : JsNum → JsNum → JsNum
  | .exact a, .exact b => if exactRange (a - b) then .exact (a - b) else .unknown
  | .nonfinite, _ => .nonfinite
  | _, .nonfinite => .nonfinite
  | _, _ => .unknown

/-- JS multiplication, tracked exactly as jsAdd (a non-finite factor makes
the product NaN or an infinity whatever the other factor is). -/
def jsMul : JsNum → JsNum → JsNum
  | .exact a, .exact b => if exactRange (a * b) then .exact (a * b) else .unknown
  | .nonfinite, _ => .nonfinite
  | _, .nonfinite => .nonfinite
  | _, _ => .unknown

/-- JS division: dividing any value by zero gives an infinity or NaN, hence
certainly non-finite; an exact division of in-range integers is exact (the
quotient magnitude is bounded by the dividend); a non-finite dividend stays
non-finite over every divisor; a finite dividend over a non-finite divisor
is finite (zero) or NaN, hence untracked, as is an inexact quotient. -/
def jsDiv : JsNum → JsNum → JsNum
  | .exact a, .exact b =>
    if b = 0 then .nonfinite
    else if a % b = 0 then .exact (a / b) else .unknown
  | .nonfinite, _ => .nonfinite
  | .unknown, .exact b => if b = 0 then .nonfinite else .unknown
  | _, _ => .unknown

/-- JS unary minus: exact on the symmetric exact range, non-finite stays
non-finite. -/
def jsNeg : JsNum → JsNum
  | .exact a => .exact (-a)
  | .nonfinite => .nonfinite
  | .unknown => .unknown

/-- JS exponentiation: the language standard fixes a zero exponent to one
(for every base, NaN included) but leaves the general case
implementation-approximated, so only a zero exponent is tracked. -/
def jsPow : JsNum → JsNum → JsNum
  | _, .exact 0 => .exact 1
  | _, _ => .unknown

/-- Value of a digit character. -/
def digitVal (c : Char) : Nat := c.toNat - 48

/-- Value of a digit string. -/
def natOfDigits (l : List Char) : Nat := l.foldl (fun n c => 10 * n + digitVal c) 0

/-- The model value of a decimal literal with integer part ip and fractional
part fp: a literal whose integer part has a leading zero before another
digit is a legacy octal form (an error in strict mode, octal in sloppy
mode), untracked here; otherwise the literal is exact when its value is an
integer in the exact double range, untracked when not. -/
def litVal (ip fp : List Char) : JsNum :=
  if 2 ≤ ip.length ∧ ip.head? = some '0' then .unknown
  else if natOfDigits (ip ++ fp) % Nat.pow 10 fp.length = 0 then
    (if ((natOfDigits (ip ++ fp) / Nat.pow 10 fp.length : Nat) : Int) ≤ twoPow53 then
      .exact ((natOfDigits (ip ++ fp) / Nat.pow 10 fp.length : Nat) : Int)
    else .unknown)
  else .unknown

/-- Parses a JS decimal literal: digits, an optional dot with further digits,
at least one digit overall. -/
def parseNumber (l : List Char) : Option (JsNum × List Char) :=
  let ip := l.takeWhile Char.isDigit
  match l.drop ip.length with
  | '.' :: r2 =>
    let fp := r2.takeWhile Char.isDigit
    if ip.isEmpty && fp.isEmpty then none
    else some (litVal ip fp, r2.drop fp.length)
  | r1 =>
    if ip.isEmpty then none
    else some (litVal ip [], r1)

mutual

/-- Additive level of the JS expression grammar. -/
def parseAdd : Nat → List Char → Option (JsNum × List Char)
  | 0, _ => none
  | fuel + 1, l =>
    match parseMul fuel l with
    | some (v, r) => parseAddLoop fuel v r
    | none => none

/-- Left-associative chain of plus and minus. -/
def parseAddLoop : Nat → JsNum → List Char → Option (JsNum × List Char)
  | 0, _, _ => none
  | fuel + 1, acc, l =>
    match l with
    | '+' :: r =>
      match parseMul fuel r with
      | some (v, r2) => parseAddLoop fuel (jsAdd acc v) r2
      | none => none
    | '-' :: r =>
      match parseMul fuel r with
      | some (v, r2) => parseAddLoop fuel (jsSub acc v) r2
      | none => none
    | _ => some (acc, l)

/-- Multiplicative level of the JS expression grammar. -/
def parseMul : Nat → List Char → Option (JsNum × List Char)
  | 0, _ => none
  | fuel + 1, l =>
    match parseExpo fuel l with
    | some (v, r) => parseMulLoop fuel v r
    | none => none

/-- Left-associative chain of times and divide; a double star here is a
SyntaxError because the exponent operand was already consumed. -/
def parseMulLoop : Nat → JsNum → List Char → Option (JsNum × List Char)
  | 0, _, _ => none
  | fuel + 1, acc, l =>
    match l with
    | '*' :: '*' :: _ => none
    | '*' :: r =>
      match parseExpo fuel r with
      | some (v, r2) => parseMulLoop fuel (jsMul acc v) r2
      | none => none
    | '/' :: r =>
      match parseExpo fuel r with
      | some (v, r2) => parseMulLoop fuel (jsDiv acc v) r2
      | none => none
    | _ => some (acc, l)

/-- Exponentiation level: a primary optionally followed by a right
associative double star, or a unary chain, which JS forbids directly before
a double star. -/
def parseExpo : Nat → List Char → Option (JsNum × List Char)
  | 0, _ => none
  | fuel + 1, l =>
    match l with
    | '+' :: _ =>
      match parseUnary fuel l with
      | some (_, '*' :: '*' :: _) => none
      | some (v, r) => some (v, r)
      | none => none
    | '-' :: _ =>
      match parseUnary fuel l with
      | some (_, '*' :: '*' :: _) => none
      | some (v, r) => some (v, r)
      | none => none
    | _ =>
      match parsePrimary fuel l with
      | some (v0, '*' :: '*' :: r2) =>
        match parseExpo fuel r2 with
        | some (e, r3) => some (jsPow v0 e, r3)
        | none => none
      | some (v, r) => some (v, r)
      | none => none

/-- Unary plus and minus chains. -/
def parseUnary : Nat → List Char → Option (JsNum × List Char)
  | 0, _ => none
  | fuel + 1, l =>
    match l with
    | '+' :: r =>
      match parseUnary fuel r with
      | some (v, r2) => some (v, r2)
      | none => none
    | '-' :: r =>
      match parseUnary fuel r with
      | some (v, r2) => some (jsNeg v, r2)
      | none => none
    | _ => parsePrimary fuel l

/-- Primary expressions: a parenthesized expression or a number literal. -/
def parsePrimary : Nat → List Char → Option (JsNum × List Char)
  | 0, _ => none
  | fuel + 1, l =>
    match l with
    | '(' :: r =>
      match parseAdd fuel r with
      | some (v, ')' :: r3) => some (v, r3)
      | some _ => none
      | none => none
    | _ => parseNumber l

end

/-- The outcome of the eval call and the Number.isFinite check that follows
it: a SyntaxError thrown by eval, a value certainly failing the finiteness
check, a finite integer double n rendered by the interpolation as its
decimal digits, or an outcome outside the exact fragment. -/
inductive EvalOut
  | syntaxErr
  | nonfinite
  | val (n : Int)
  | untracked
  deriving DecidableEq

/-- Models JS eval on a sanitized expression. The JS lexer reads two
adjacent plus or minus signs as an increment or decrement token by maximal
munch, which is always a SyntaxError on these literal-and-parenthesis
expressions, hence the leading check. -/
def evalJS (l : List Char) : EvalOut :=
  if hasSub l ['+', '+'] || hasSub l ['-', '-'] then .syntaxErr
  else
    match parseAdd (8 * l.length + 8) l with
    | some (.exact n, []) => .val n
    | some (.nonfinite, []) => .nonfinite
    | some (.unknown, []) => .untracked
    | _ => .syntaxErr

/-- Models the try block of CalculateToolHandler.execute: schema parse (none
models a Zod rejection), sanitization through the SecurityManager, eval, the
finiteness check and the interpolation of the result. The uneval parameter
resolves the untracked eval outcomes with the host eval: ok carries the
interpolated finite value, error the message of the throw (a strict-mode
SyntaxError, or the finiteness failure). -/
def calcInner (uneval : String → Except String String) (args : Option String) :
    Except String String :=
  match args with
  | none => .error "Invalid arguments"
  | some expression =>
    match sanitizeMathExpression expression with
    | .error e => .error e
    | .ok s =>
      match evalJS s.data with
      | .syntaxErr => .error "SyntaxError"
      | .nonfinite => .error "Result is not a finite number"
      | .val n => .ok (expression ++ " = " ++ toString n)
      | .untracked =>
        match uneval s with
        | .ok rendered => .ok (expression ++ " = " ++ rendered)
        | .error m => .error m

/-- Models CalculateToolHandler.execute: the try block wrapped by the catch
that turns any thrown message into createErrorResult. -/
def calcExecute (uneval : String → Except String String) (args : Option String) :
    ToolResult :=
  match calcInner uneval args with
  | .ok t => mkSuccess t
  | .error e => mkError e

/-! ### Lemmas and claims about the calculator -/

/-- A JSON value, for request arguments and declared input schemas. -/
inductive JVal
  | str (s : String)
  | num (n : Nat)
  | bool (b : Bool)
  | arr (xs : List JVal)
  | obj (fields : List (String × JVal))

/-- Field lookup in a JSON object. -/
def jGet (fields : List (String × JVal)) (k : String) : Option JVal :=
  (fields.find? (fun f => f.1 == k)).map (fun f => f.2)

/-- The declared input schema of the get_time tool. -/
def timeSchema : JVal :=
  .obj [("type", .str "object"),
    ("properties", .obj [("timezone", .obj [
      ("type", .str "string"),
      ("description", .str "Timezone to get time for (e.g., UTC, EST, PST)")])])]

/-- The declared input schema of the calculate tool. -/
def calcSchema : JVal :=
  .obj [("type", .str "object"),
    ("properties", .obj [("expression", .obj [
      ("type", .str "string"),
      ("description",
        .str "Mathematical expression to calculate (e.g., \"2 + 2\", \"sqrt(16)\")"),
      ("maxLength", .num 1000)])]),
    ("required", .arr [.str "expression"])]

/-- The declared input schema of the file_operation tool. -/
def fileSchema : JVal :=
  .obj [("type", .str "object"),
    ("properties", .obj [
      ("operation", .obj [
        ("type", .str "string"),
        ("enum", .arr [.str "read", .str "write", .str "list"]),
        ("description", .str "File operation to perform")]),
      ("path", .obj [
        ("type", .str "string"),
        ("description", .str "File or directory path (relative to workspace)"),
        ("maxLength", .num 1000)]),
      ("content", .obj [
        ("type", .str "string"),
        ("description", .str "Content to write (only for write operation)")])]),
    ("required", .arr [.str "operation", .str "path"])]

/-- A registered tool handler: name, description, declared input schema, and
the execute function. -/
structure ToolHandlerM where
  name : String
  description : String
  inputSchema : JVal
  run : JVal → ToolResult

/-- Models GetTimeToolSchema.parse: an object whose optional timezone field
must be a string. -/
def parseTimeArgs : JVal → Option (Option String)
  | .obj fields =>
    match jGet fields "timezone" with
    | none => some none
    | some (.str s) => some (some s)
    | some _ => none
  | _ => none

/-- Models TimeToolHandler.execute: parse, default timezone UTC, format the
current time through the host clock (none models the RangeError thrown on an
invalid timezone), catch wrapping failures. -/
def timeRun (clock : String → Option String) (a : JVal) : ToolResult :=
  match parseTimeArgs a with
  | none => mkError "Failed to get time: Invalid arguments"
  | some tzOpt =>
    match clock (tzOpt.getD "UTC") with
    | some t => mkSuccess ("Current time in " ++ tzOpt.getD "UTC" ++ ": " ++ t)
    | none =>
      mkError ("Failed to get time: Invalid time zone specified: " ++
        tzOpt.getD "UTC")

/-- Models CalculateToolSchema.parse: an object whose required expression
field must be a string. -/
def parseCalcArgs : JVal → Option String
  | .obj fields =>
    match jGet fields "expression" with
    | some (.str s) => some s
    | _ => none
  | _ => none

/-- Models CalculateToolHandler.execute at the protocol boundary, with the
host-eval oracle for untracked arithmetic outcomes. -/
def calcRun (uneval : String → Except String String) (a : JVal) : ToolResult :=
  calcExecute uneval (parseCalcArgs a)

/-- Models FileOperationToolSchema.parse: operation from the enum, path a
string, content an optional string. -/
def parseFileOpArgs : JVal → Option FileOpArgs
  | .obj fields =>
    match jGet fields "operation", jGet fields "path" with
    | some (.str op), some (.str p) =>
      match (match jGet fields "content" with
        | none => some none
        | some (.str c) => some (some c)
        | some _ => none : Option (Option String)) with
      | none => none
      | some c =>
        if op = "read" then some ⟨.read, p, c⟩
        else if op = "write" then some ⟨.write, p, c⟩
        else if op = "list" then some ⟨.list, p, c⟩
        else none
    | _, _ => none
  | _ => none

/-- The get_time handler as registered. -/
def timeHandler (clock : String → Option String) : ToolHandlerM :=
  ⟨"get_time", "Get current time for a specific timezone", timeSchema,
    timeRun clock⟩

/-- The calculate handler as registered. -/
def calcHandler (uneval : String → Except String String) : ToolHandlerM :=
  ⟨"calculate", "Perform mathematical calculations with strict security validation",
    calcSchema, calcRun uneval⟩

/-- The file_operation handler as registered. -/
def fileOpHandler (sec : SecurityCtx) (fs : Fs) : ToolHandlerM :=
  ⟨"file_operation",
    "Perform secure file operations (read, write, list) within workspace only",
    fileSchema, fun a => (fileOpExecute sec fs (parseFileOpArgs a)).1⟩

/-- Models the availableTools factory table of initializeTools. -/
def availableTools (clock : String → Option String)
    (uneval : String → Except String String) (sec : SecurityCtx) (fs : Fs) :
    String → Option ToolHandlerM
  | "get_time" => some (timeHandler clock)
  | "calculate" => some (calcHandler uneval)
  | "file_operation" => some (fileOpHandler sec fs)
  | _ => none

/-- Models ModularMcpServer.initializeTools: register the factory result for
each enabled name in order, skipping unknown names. -/
def initializeTools (clock : String → Option String)
    (uneval : String → Except String String) (sec : SecurityCtx) (fs : Fs)
    (enabled : List String) : List ToolHandlerM :=
  enabled.filterMap (availableTools clock uneval sec fs)

/-- The default enabledTools of the server configuration. -/
def defaultEnabledTools : List String := ["get_time", "calculate", "file_operation"]

/-- The handler map of a server built with the default configuration. -/
def defaultHandlers (clock : String → Option String)
    (uneval : String → Except String String) (sec : SecurityCtx) (fs : Fs) :
    List ToolHandlerM :=
  initializeTools clock uneval sec fs defaultEnabledTools

/-- Models the Map lookup of the CallTool request handler. -/
def lookupHandler (hs : List ToolHandlerM) (n : String) : Option ToolHandlerM :=
  hs.find? (fun h => h.name == n)

/-- Models the CallTool request handler of setupRequestHandlers: look the
name up, execute the handler, and let the catch block answer unknown tools
with an error result. -/
def callTool (hs : List ToolHandlerM) (n : String) (args : JVal) : ToolResult :=
  match lookupHandler hs n with
  | some h => h.run args
  | none => mkError ("Unknown tool: " ++ n)

/-- Models the ListTools request handler: name, description and declared
input schema of every registered handler, in registration order. -/
def listTools (hs : List ToolHandlerM) : List (String × String × JVal) :=
  hs.map (fun h => (h.name, h.description, h.inputSchema))

/-- C7: dispatch is exactly a lookup in the name-to-handler map: a registered
name runs that handler and returns its result, an unregistered name yields
the unknown-tool error result, and ListTools lists exactly the registered
handlers with their names, descriptions and declared schemas. -/
theorem claim_C7_dispatch (clock : String → Option String)
    (uneval : String → Except String String) (sec : SecurityCtx)
    (fs : Fs) (n : String) (args : JVal) :
    (∀ h, lookupHandler (defaultHandlers clock uneval sec fs) n = some h →
        callTool (defaultHandlers clock uneval sec fs) n args = h.run args ∧
          h.name = n) ∧
    (lookupHandler (defaultHandlers clock uneval sec fs) n = none →
        callTool (defaultHandlers clock uneval sec fs) n args =
          mkError ("Unknown tool: " ++ n)) ∧
    listTools (defaultHandlers clock uneval sec fs) =
      [("get_time", "Get current time for a specific timezone", timeSchema),
        ("calculate", "Perform mathematical calculations with strict security validation",
          calcSchema),
        ("file_operation",
          "Perform secure file operations (read, write, list) within workspace only",
          fileSchema)] := by
  refine ⟨?_, ?_, rfl⟩
  · intro h hh
    refine ⟨by unfold callTool; rw [hh], ?_⟩
    have := List.find?_some hh
    simpa using this
  · intro hh
    unfold callTool
    rw [hh]

/-- Witness for C7: the registered name calculate dispatches to the calculate
handler. -/
theorem claim_C7_witness :
    callTool (defaultHandlers (fun _ => none) (fun _ => .error "") ⟨"/ws", 5, []⟩ [])
        "calculate" (JVal.obj [("expression", JVal.str "2+3")]) =
      (calcHandler (fun _ => .error "")).run
        (JVal.obj [("expression", JVal.str "2+3")]) ∧
    (calcHandler (fun _ => .error "")).name = "calculate" :=
  (claim_C7_dispatch (fun _ => none) (fun _ => .error "") ⟨"/ws", 5, []⟩ [] "calculate"
    (JVal.obj [("expression", JVal.str "2+3")])).1 (calcHandler (fun _ => .error ""))
    (by rfl)

/-! ### Totality of the handlers (C8) -/

/-- The calculate tool always returns a single-text result, success or
created by createErrorResult, whatever the host eval does. -/
theorem calcExecute_shape (uneval : String → Except String String) (a : Option String) :
    (∃ t, calcExecute uneval a = mkSuccess t) ∨
      (∃ m, calcExecute uneval a = mkError m) := by
  cases h : calcInner uneval a with
  | error e => exact Or.inr ⟨e, by unfold calcExecute; rw [h]⟩
  | ok t => exact Or.inl ⟨t, by unfold calcExecute; rw [h]⟩

/-- The file_operation tool always returns a single-text result. -/
theorem fileOpExecute_shape (sec : SecurityCtx) (fs : Fs) (a : Option FileOpArgs) :
    (∃ t, (fileOpExecute sec fs a).1 = mkSuccess t) ∨
      (∃ m, (fileOpExecute sec fs a).1 = mkError m) := by
  rcases h : fileOpInner sec fs a with ⟨res, log⟩
  cases res with
  | error e => exact Or.inr ⟨_, by unfold fileOpExecute; rw [h]⟩
  | ok t => exact Or.inl ⟨_, by unfold fileOpExecute; rw [h]⟩

/-- The get_time tool always returns a single-text result. -/
theorem timeRun_shape (clock : String → Option String) (args : JVal) :
    (∃ t, timeRun clock args = mkSuccess t) ∨ (∃ m, timeRun clock args = mkError m) := by
  cases hp : parseTimeArgs args with
  | none =>
    exact Or.inr ⟨"Failed to get time: Invalid arguments", by simp only [timeRun, hp]⟩
  | some tzOpt =>
    cases hc : clock (tzOpt.getD "UTC") with
    | none =>
      exact Or.inr ⟨"Failed to get time: Invalid time zone specified: " ++
        tzOpt.getD "UTC", by simp only [timeRun, hp, hc]⟩
    | some t =>
      exact Or.inl ⟨"Current time in " ++ tzOpt.getD "UTC" ++ ": " ++ t,
        by simp only [timeRun, hp, hc]⟩

/-- C8: no tool execution propagates an exception: on every input, each
registered handler and the CallTool request handler return a ToolResult that
is a single text item, either a success or an error whose text carries the
Error prefix (the mkError shape of createErrorResult). -/
theorem claim_C8_no_exceptions (clock : String → Option String)
    (uneval : String → Except String String) (sec : SecurityCtx)
    (fs : Fs) (n : String) (args : JVal) :
    ((∃ t, timeRun clock args = mkSuccess t) ∨
      (∃ m, timeRun clock args = ToolResult.mk [⟨"text", "Error: " ++ m⟩])) ∧
    ((∃ t, calcRun uneval args = mkSuccess t) ∨
      (∃ m, calcRun uneval args = ToolResult.mk [⟨"text", "Error: " ++ m⟩])) ∧
    ((∃ t, (fileOpHandler sec fs).run args = mkSuccess t) ∨
      (∃ m, (fileOpHandler sec fs).run args =
        ToolResult.mk [⟨"text", "Error: " ++ m⟩])) ∧
    ((∃ t, callTool (defaultHandlers clock uneval sec fs) n args = mkSuccess t) ∨
      (∃ m, callTool (defaultHandlers clock uneval sec fs) n args =
        ToolResult.mk [⟨"text", "Error: " ++ m⟩])) := by
  refine ⟨timeRun_shape clock args, calcExecute_shape uneval _,
    fileOpExecute_shape sec fs _, ?_⟩
  cases hh : lookupHandler (defaultHandlers clock uneval sec fs) n with
  | none => exact Or.inr ⟨"Unknown tool: " ++ n, by unfold callTool; rw [hh]; rfl⟩
  | some h =>
    have hmem : h ∈ defaultHandlers clock uneval sec fs := List.mem_of_find?_eq_some hh
    have hdef : defaultHandlers clock uneval sec fs =
        [timeHandler clock, calcHandler uneval, fileOpHandler sec fs] := rfl
    rw [hdef] at hmem
    have hrun : callTool (defaultHandlers clock uneval sec fs) n args = h.run args := by
      unfold callTool
      rw [hh]
    simp only [List.mem_cons, List.not_mem_nil, or_false] at hmem
    rcases hmem with rfl | rfl | rfl
    · rw [hrun]; exact timeRun_shape clock args
    · rw [hrun]; exact calcExecute_shape uneval _
    · rw [hrun]; exact fileOpExecute_shape sec fs _

/-! ## Extension process lifecycle (src: extension.ts) -/

/-- Events recorded by the extension when managing the server subprocess. -/
inductive SupEvent
  | spawned (pid : Nat)
  | sigterm (pid : Nat)
  | cleared
  deriving DecidableEq

/-- The extension host state: the single global serverProcess variable (an
optional handle), a pid supply for spawn, and the event log. -/
structure ExtState where
  tracked : Option Nat
  nextPid : Nat
  log : List SupEvent
  deriving DecidableEq

/-- Models startMcpServer: when a subprocess handle is tracked, kill it with
SIGTERM and clear the handle; then spawn the new process and track it. -/
def startMcpServer (s : ExtState) : ExtState :=
  match s.tracked with
  | some p =>
    { tracked := some s.nextPid, nextPid := s.nextPid + 1,
      log := s.log ++ [.sigterm p, .cleared, .spawned s.nextPid] }
  | none =>
    { tracked := some s.nextPid, nextPid := s.nextPid + 1,
      log := s.log ++ [.spawned s.nextPid] }

/-- Models the close, error and disconnect listeners registered on the
spawned process: each sets the global serverProcess to null. -/
def procEvent (s : ExtState) : ExtState := { s with tracked := none }

/-- Extension states reachable from activation (no process tracked). -/
inductive Reachable : ExtState → Prop
  | init : Reachable ⟨none, 0, []⟩
  | start {s} : Reachable s → Reachable (startMcpServer s)
  | event {s} : Reachable s → Reachable (procEvent s)

/-- C3: the extension tracks at most one subprocess handle (the single
serverProcess variable is null or exactly one handle in every reachable
state), and every startMcpServer call on a state with a tracked handle sends
SIGTERM to it and clears it before spawning the new process, which becomes
the tracked handle. -/
theorem claim_C3_single_instance (s : ExtState) :
    (Reachable s → s.tracked = none ∨ ∃ p, s.tracked = some p) ∧
    (∀ p, s.tracked = some p →
      (startMcpServer s).log = s.log ++ [.sigterm p, .cleared, .spawned s.nextPid] ∧
      (startMcpServer s).tracked = some s.nextPid) ∧
    (s.tracked = none →
      (startMcpServer s).log = s.log ++ [.spawned s.nextPid] ∧
      (startMcpServer s).tracked = some s.nextPid) := by
  refine ⟨?_, ?_, ?_⟩
  · intro _
    cases s.tracked with
    | none => exact Or.inl rfl
    | some p => exact Or.inr ⟨p, rfl⟩
  · intro p hp
    unfold startMcpServer
    rw [hp]
    exact ⟨rfl, rfl⟩
  · intro hp
    unfold startMcpServer
    rw [hp]
    exact ⟨rfl, rfl⟩

/-- Witness for C3 at a state tracking handle 3 with next pid 7. -/
theorem claim_C3_witness :
    (startMcpServer ⟨some 3, 7, []⟩).log =
      ([] : List SupEvent) ++ [.sigterm 3, .cleared, .spawned 7] ∧
    (startMcpServer ⟨some 3, 7, []⟩).tracked = some 7 :=
  (claim_C3_single_instance ⟨some 3, 7, []⟩).2.1 3 rfl

/-- The deactivation-time state: the global serverProcess variable, the
signals sent to the child so far, whether the force-kill timeout is armed,
and whether the exit listener has cleared it. -/
structure DeactState where
  tracked : Option Nat
  sigs : List (Nat × String)
  timeoutArmed : Bool
  timeoutCleared : Bool
  deriving DecidableEq

/-- Models deactivate: with a tracked handle it sends SIGTERM, arms the
5000 ms force-kill timeout, registers the exit listener that clears it, and
then synchronously sets the global serverProcess to null - all before the JS
event loop can run the timeout callback. -/
def deactivate (s : DeactState) : DeactState :=
  match s.tracked with
  | none => s
  | some p =>
    { tracked := none,
      sigs := s.sigs ++ [(p, "SIGTERM")],
      timeoutArmed := true,
      timeoutCleared := s.timeoutCleared }

/-- Models the exit listener firing when the child exits before the timeout:
it clears the force-kill timeout. -/
def childExit (s : DeactState) : DeactState := { s with timeoutCleared := true }

/-- Models the force-kill timeout callback firing 5000 ms later when the
child has not exited: it reads the global serverProcess variable and sends
SIGKILL only when a handle is still tracked. -/
def fireForceKill (s : DeactState) : DeactState :=
  if s.timeoutArmed && !s.timeoutCleared then
    match s.tracked with
    | some p => { s with sigs := s.sigs ++ [(p, "SIGKILL")] }
    | none => s
  else s

/-- C2: at the failing input (a tracked subprocess that ignores SIGTERM and
has not exited when the 5000 ms timeout fires) deactivate sends SIGTERM and
synchronously nulls the global handle; the timeout callback then sees a null
handle and never sends SIGKILL, so the forced termination the claim and the
source comment promise does not happen. -/
theorem claim_C2_no_forced_kill :
    (fireForceKill (deactivate ⟨some 1, [], false, false⟩)).sigs = [(1, "SIGTERM")] ∧
    (∀ p, (p, "SIGKILL") ∉ (fireForceKill (deactivate ⟨some 1, [], false, false⟩)).sigs) := by
  constructor
  · decide
  · intro p hp
    have hs : (fireForceKill (deactivate ⟨some 1, [], false, false⟩)).sigs =
        [(1, "SIGTERM")] := by decide
    rw [hs] at hp
    rcases List.mem_singleton.mp hp with h
    have h2 : "SIGKILL" = "SIGTERM" := congrArg Prod.snd h
    exact absurd h2 (by decide)

end CopilotBuild
